import Mathlib

/-!
Verification development for the OPTIC-5G scenario harness.

The definitions below are a shallow embedding of the metric-aggregation,
mask-selection, geodata-loading and energy-model logic of the four C++
scenario files (`manila_5g.cc`, `PUPtestbedns3.cc`, `quantum_5g_sim.cc`,
`simulate_real_manila.cc`).  Machine doubles whose use is purely
field-arithmetical and order-comparing are modelled as rationals; values
that flow through transcendental functions (log10, cos) are modelled as
reals.  `std::stod` outcomes are modelled as `Option` cells: `some v` when
the token parses to `v`, `none` when `std::stod` throws.
-/

namespace Optic5G

/-! ### SINR accumulation (manila_5g.cc lines 23-31, PUPtestbedns3.cc lines 20-34)

Both scenarios keep a global running sum and sample count fed by a
per-sample trace callback; the globals are modelled as an explicit
accumulator threaded through a fold. -/

structure SinrAcc where
  total : ℚ
  count : ℕ
deriving DecidableEq

def initSinrAcc : SinrAcc := ⟨0, 0⟩

/-- manila_5g.cc `RsrpSinrCallback` (lines 27-32): the reported SINR is in
linear scale and is added to the running linear sum. -/
def RsrpSinrCallback (acc : SinrAcc) (sinr : ℚ) : SinrAcc :=
  { total := acc.total + sinr, count := acc.count + 1 }

/-- Run of manila_5g.cc on a trace of linear SINR samples. -/
def runManilaSinr (samples : List ℚ) : SinrAcc :=
  samples.foldl RsrpSinrCallback initSinrAcc

/-- PUPtestbedns3.cc `MonitorSnifferRxCallback` (lines 24-34): per received
packet the callback computes `sinrDb = signal - noise` (both in dBm) and
adds it to the running dB sum. -/
def MonitorSnifferRxCallback (acc : SinrAcc) (signal noise : ℚ) : SinrAcc :=
  { total := acc.total + (signal - noise), count := acc.count + 1 }

/-- Run of PUPtestbedns3.cc on a trace of (signal, noise) dBm pairs. -/
def runPupSinr (samples : List (ℚ × ℚ)) : SinrAcc :=
  samples.foldl (fun acc p => MonitorSnifferRxCallback acc p.1 p.2) initSinrAcc

/-- manila_5g.cc lines 245-252: `averageSinrDb` starts at the floor -100;
when at least one sample was collected the linear mean is taken and, when
that mean is positive, converted with `10 * log10`. -/
noncomputable def manilaAverageSinrDb (acc : SinrAcc) : ℝ :=
  if 0 < acc.count then
    (if 0 < acc.total / (acc.count : ℚ)
      then 10 * Real.logb 10 ((acc.total / (acc.count : ℚ) : ℚ) : ℝ)
      else -100)
  else -100

/-- PUPtestbedns3.cc line 211: `averageSinr` is the plain dB mean when at
least one sample was collected, and `0.0` otherwise. -/
def pupAverageSinr (acc : SinrAcc) : ℚ :=
  if 0 < acc.count then acc.total / (acc.count : ℚ) else 0

/-! ### Per-flow telemetry aggregation (manila_5g.cc lines 221-240,
PUPtestbedns3.cc lines 202-210)

Both scenarios run the identical accumulation loop over the FlowMonitor
statistics map; the loop is modelled as a fold over the flow list. -/

structure FlowStats where
  txPackets : ℕ
  rxPackets : ℕ
  rxBytes : ℕ
  timeFirstTxPacket : ℚ
  timeLastRxPacket : ℚ
deriving DecidableEq

structure Totals where
  totalTxPackets : ℚ
  totalRxPackets : ℚ
  totalRxBytes : ℚ
  totalThroughput : ℚ
deriving DecidableEq

def initTotals : Totals := ⟨0, 0, 0, 0⟩

/-- manila_5g.cc lines 226-235 (the loop body in PUPtestbedns3.cc lines
203-208 is identical): packet and byte counters are summed, and a flow
adds `(rxBytes * 8) / (flowDuration * 1e6)` Mbps to the running
throughput only when its duration `timeLastRxPacket - timeFirstTxPacket`
is strictly positive. -/
def accumulateFlow (t : Totals) (fs : FlowStats) : Totals :=
  { totalTxPackets := t.totalTxPackets + (fs.txPackets : ℚ)
    totalRxPackets := t.totalRxPackets + (fs.rxPackets : ℚ)
    totalRxBytes := t.totalRxBytes + (fs.rxBytes : ℚ)
    totalThroughput :=
      if 0 < fs.timeLastRxPacket - fs.timeFirstTxPacket
        then t.totalThroughput +
          ((fs.rxBytes : ℚ) * 8) / ((fs.timeLastRxPacket - fs.timeFirstTxPacket) * 1000000)
        else t.totalThroughput }

def flowTotals (flows : List FlowStats) : Totals :=
  flows.foldl accumulateFlow initTotals

/-- The throughput contribution of a single flow as computed by the loop. -/
def flowContribution (fs : FlowStats) : ℚ :=
  if 0 < fs.timeLastRxPacket - fs.timeFirstTxPacket
    then ((fs.rxBytes : ℚ) * 8) / ((fs.timeLastRxPacket - fs.timeFirstTxPacket) * 1000000)
    else 0

/-- manila_5g.cc lines 237-240: `packetLossRatio` is initialised to `0.0`
and only overwritten when `totalTxPackets > 0`. -/
def manilaPacketLoss (flows : List FlowStats) : ℚ :=
  if 0 < (flowTotals flows).totalTxPackets
    then (((flowTotals flows).totalTxPackets - (flowTotals flows).totalRxPackets)
            / (flowTotals flows).totalTxPackets) * 100
    else 0

/-- PUPtestbedns3.cc line 210: `packetLoss` is the same ratio when
`totalTxPackets > 0`, and `100.0` otherwise. -/
def pupPacketLoss (flows : List FlowStats) : ℚ :=
  if 0 < (flowTotals flows).totalTxPackets
    then (((flowTotals flows).totalTxPackets - (flowTotals flows).totalRxPackets)
            / (flowTotals flows).totalTxPackets) * 100
    else 100

/-! ### Energy models (manila_5g.cc lines 37-41, PUPtestbedns3.cc lines 37-39) -/

/-- manila_5g.cc `CalculateTotalEnergy`: the body is `130.0 * activeTowers`;
the `totalTxPowerDbm` argument is accepted but never used. -/
def CalculateTotalEnergy (activeTowers : ℕ) (totalTxPowerDbm : ℚ) : ℚ :=
  130 * (activeTowers : ℚ)

/-- PUPtestbedns3.cc `CalculateTestbedEnergy`: `activeNodes * 10.5`. -/
def CalculateTestbedEnergy (activeNodes : ℤ) : ℚ :=
  (activeNodes : ℚ) * 10.5

/-! ### Mask selection and the manila tower-loading loop
(manila_5g.cc lines 94-151, PUPtestbedns3.cc lines 100-104) -/

/-- One raw line of manila_5g.cc's tower CSV, as seen by the loop at lines
98-121: whether `line.empty()` holds, and the `std::stod` outcome of each
comma-separated token. -/
structure RawLine where
  emptyLine : Bool
  fields : List (Option ℚ)
deriving DecidableEq

/-- The data manila_5g.cc lines 118-121 extracts from an accepted row. -/
structure Tower where
  x : ℚ
  y : ℚ
  txPower : ℚ
  bwMHz : ℚ
deriving DecidableEq

/-- Loop state of manila_5g.cc lines 94-96 plus the installed towers.
`maskReads` is a ghost trace recording every index at which
`activeTowerMask[towerIndex]` is subscripted (line 103); the source
performs the read, it keeps no such list. -/
structure ManilaState where
  towerIndex : ℕ
  activeCount : ℕ
  totalTxPower : ℚ
  towers : List Tower
  maskReads : List ℕ
deriving DecidableEq

def initManilaState : ManilaState := ⟨0, 0, 0, [], []⟩

/-- manila_5g.cc lines 109-150 (after the mask gate): each token is parsed
with `std::stod` and a failed parse pushes `0.0` (line 113, modelled with
`Option.getD 0`); a row with fewer than 5 fields is skipped *without*
advancing `towerIndex` (line 116); otherwise a tower is installed at
(rowData[0], rowData[1]) with txPower rowData[2] and bandwidth rowData[4],
and the counters advance. -/
def manilaProcessRow (st : ManilaState) (ln : RawLine) : ManilaState :=
  let rowData := ln.fields.map (fun c => c.getD 0)
  if rowData.length < 5 then st
  else
    { st with
      towerIndex := st.towerIndex + 1
      activeCount := st.activeCount + 1
      totalTxPower := st.totalTxPower + rowData.getD 2 0
      towers := st.towers
        ++ [⟨rowData.getD 0 0, rowData.getD 1 0, rowData.getD 2 0, rowData.getD 4 0⟩] }

/-- manila_5g.cc lines 98-151, one iteration of the `while (getline)` loop:
empty lines are skipped before the mask gate; the mask string is
subscripted only when it is non-empty and `towerIndex` lies within it
(recorded in the ghost `maskReads`); a `'0'` character skips the row and
advances the mask index. -/
def manilaStep (mask : List Char) (st : ManilaState) (ln : RawLine) : ManilaState :=
  if ln.emptyLine then st
  else if 0 < mask.length ∧ st.towerIndex < mask.length then
    let st' := { st with maskReads := st.maskReads ++ [st.towerIndex] }
    if mask.getD st.towerIndex ' ' = '0' then
      { st' with towerIndex := st'.towerIndex + 1 }
    else manilaProcessRow st' ln
  else manilaProcessRow st ln

def manilaRun (mask : List Char) (lns : List RawLine) : ManilaState :=
  lns.foldl (manilaStep mask) initManilaState

/-- The mask-exclusion condition of manila_5g.cc lines 102-105: the row at
tower index `i` is turned off iff the mask is non-empty, `i` is within the
mask, and the character there is `'0'`. -/
def manilaExcluded (mask : List Char) (i : ℕ) : Bool :=
  decide (0 < mask.length) && decide (i < mask.length) && (mask.getD i ' ' == '0')

/-- PUPtestbedns3.cc's `activeMask[i]`, modelling `std::string::operator[]`:
the mask character within bounds, and the C++11 null terminator at index
`mask.length`.  The subscripts strictly past the length that the source
performs for masks shorter than 16 are undefined behaviour in C++; they are
given the same null default here. -/
def pupCharAt (mask : List Char) (i : ℕ) : Char := mask.getD i (Char.ofNat 0)

/-- PUPtestbedns3.cc line 103: router `i` is counted active iff
`activeMask[i] == '1'`. -/
def pupIsActive (mask : List Char) (i : ℕ) : Bool := pupCharAt mask i == '1'

/-- PUPtestbedns3.cc lines 100-104: `activeCount` over the fixed 17 routers. -/
def pupActiveCount (mask : List Char) : ℕ :=
  ((List.range 17).filter (fun i => pupIsActive mask i)).length

/-- Specification-level complement of `pupActiveCount`: the routers not
counted active. -/
def pupInactiveCount (mask : List Char) : ℕ :=
  ((List.range 17).filter (fun i => !pupIsActive mask i)).length

/-- PUPtestbedns3.cc lines 101-104 (likewise 123-131 and 171-179): the
loops subscript `activeMask[i]` for every `i` in `0..16` independent of the
mask's length. -/
def pupMaskReadIndices : List ℕ := List.range 17

/-! ### Geo loader (simulate_real_manila.cc `ReadSites`, lines 53-216)

Rows are modelled after tokenization and trimming: each row is the list of
its comma-separated cells, a cell being the `std::stod` outcome of the
trimmed token (`some v` on success, `none` when `std::stod` throws).
Blank lines were already skipped by the reading loop (line 97).  Values
are real because the lon/lat projection uses `cos`. -/

structure Site where
  x_m : ℝ
  y_m : ℝ
  txPower : ℝ
  freqGHz : ℝ
  bwMHz : ℝ
  radius : ℝ

/-- Column indices detected from the header (lines 77-91); `-1` means the
column is absent, and `has_xy` / `has_lonlat` are set when any column of
the respective pair was seen. -/
structure ColIdx where
  has_xy : Bool
  has_lonlat : Bool
  idx_x : Int
  idx_y : Int
  idx_lon : Int
  idx_lat : Int
  idx_tx : Int
  idx_freq : Int
  idx_bw : Int
  idx_r : Int
deriving DecidableEq

/-- simulate_real_manila.cc line 74: `std::tolower` on one (ASCII)
character. -/
def lowerChar (c : Char) : Char :=
  if 'A' ≤ c ∧ c ≤ 'Z' then Char.ofNat (c.toNat + 32) else c

/-- simulate_real_manila.cc lines 73-75: lower-case every character of a
column name. -/
def lowerString (s : String) : String := ⟨s.data.map lowerChar⟩

/-- Header scan of simulate_real_manila.cc lines 81-91 for one column: each
recognised (lower-cased) name overwrites the corresponding index. -/
def scanCol (acc0 : ColIdx) (p : ℕ × String) : ColIdx :=
  let i : Int := (p.1 : Int)
  let c := lowerString p.2
  let a1 := if c = "x" ∨ c = "x_m" ∨ c = "x_meters"
    then { acc0 with idx_x := i, has_xy := true } else acc0
  let a2 := if c = "y" ∨ c = "y_m" ∨ c = "y_meters"
    then { a1 with idx_y := i, has_xy := true } else a1
  let a3 := if c = "lon" ∨ c = "longitude"
    then { a2 with idx_lon := i, has_lonlat := true } else a2
  let a4 := if c = "lat" ∨ c = "latitude"
    then { a3 with idx_lat := i, has_lonlat := true } else a3
  let a5 := if c = "txpower_dbm" ∨ c = "tx_power_dbm" ∨ c = "txpower" ∨ c = "tx_power"
    then { a4 with idx_tx := i } else a4
  let a6 := if c = "frequency_ghz" ∨ c = "frequency" ∨ c = "freq_ghz"
    then { a5 with idx_freq := i } else a5
  let a7 := if c = "bandwidth_mhz" ∨ c = "bandwidth" ∨ c = "bw_mhz"
    then { a6 with idx_bw := i } else a6
  if c = "radius_m" ∨ c = "radius" then { a7 with idx_r := i } else a7

def detectColumns (cols : List String) : ColIdx :=
  cols.enum.foldl scanCol ⟨false, false, -1, -1, -1, -1, -1, -1, -1, -1⟩

/-- Reading `stod(toks[idx])` under the source's guard `size > idx`: the
in-bounds read returns the cell's parse outcome.  A negative index can
arise only from a header lacking one column of a detected pair; the
source's `toks[idx]` is then undefined behaviour in C++, modelled here as
a failed parse. -/
def cellAt (toks : List (Option ℝ)) (idx : Int) : Option ℝ :=
  if 0 ≤ idx ∧ idx < (toks.length : Int) then toks.getD idx.toNat none else none

/-- The (lon, lat) pair a single row offers to the mean-computation pass
(simulate_real_manila.cc lines 112-118): present iff the row is long
enough and both `stod` calls succeed (a throw skips the row before any
accumulation). -/
def rowPair (ci : ColIdx) (toks : List (Option ℝ)) : Option (ℝ × ℝ) :=
  if ci.idx_lon < (toks.length : Int) ∧ ci.idx_lat < (toks.length : Int) then
    match cellAt toks ci.idx_lon, cellAt toks ci.idx_lat with
    | some lon, some lat => some (lon, lat)
    | _, _ => none
  else none

/-- The parseable (lon, lat) pairs seen by the mean-computation pass. -/
def lonLatPairs (ci : ColIdx) (rows : List (List (Option ℝ))) : List (ℝ × ℝ) :=
  rows.filterMap (rowPair ci)

/-- The loop body of simulate_real_manila.cc lines 111-119: a row long
enough whose two `stod` calls both succeed accumulates (lonSum, latSum,
count); any throw skips the row before any accumulation. -/
def meanStep (ci : ColIdx) (a : ℝ × ℝ × ℕ) (toks : List (Option ℝ)) : ℝ × ℝ × ℕ :=
  if ci.idx_lon < (toks.length : Int) ∧ ci.idx_lat < (toks.length : Int) then
    match cellAt toks ci.idx_lon, cellAt toks ci.idx_lat with
    | some lon, some lat => (a.1 + lon, a.2.1 + lat, a.2.2 + 1)
    | _, _ => a
  else a

/-- simulate_real_manila.cc lines 108-122: the (meanLon, meanLat)
projection origin — the mean of all parseable (lon, lat) pairs, the
Manila-center fallback (120.98, 14.59) when none parse, and (0, 0) when no
lon/lat column exists (the loop then never runs). -/
noncomputable def meanLonLat (ci : ColIdx) (rows : List (List (Option ℝ))) : ℝ × ℝ :=
  if ci.has_lonlat then
    let acc := rows.foldl (meanStep ci) ((0 : ℝ), (0 : ℝ), (0 : ℕ))
    if 0 < acc.2.2 then (acc.1 / (acc.2.2 : ℝ), acc.2.1 / (acc.2.2 : ℝ))
    else (120.98, 14.59)
  else (0, 0)

/-- simulate_real_manila.cc line 125: 111320 m per degree of latitude. -/
noncomputable def metersPerDegLat : ℝ := 111320

/-- simulate_real_manila.cc lines 126-128. -/
noncomputable def metersPerDegLon (latDeg : ℝ) : ℝ :=
  metersPerDegLat * Real.cos (latDeg * Real.pi / 180)

/-- simulate_real_manila.cc lines 138-165: the per-row coordinate parse.
The x/y branch is selected first whenever x/y columns exist and the row is
long enough; a `stod` throw there leaves the row unparsed — the lon/lat
branch is not consulted, matching the single try/catch around both
branches.  Within the x/y branch the magnitude heuristic decides degrees
(|y| <= 90 and |x| <= 180) versus meters; the lon/lat branch always
projects as degrees. -/
noncomputable def parseCoords (ci : ColIdx) (meanLon meanLat : ℝ)
    (toks : List (Option ℝ)) : Option (ℝ × ℝ) :=
  if ci.has_xy ∧ ci.idx_x < (toks.length : Int) ∧ ci.idx_y < (toks.length : Int) then
    match cellAt toks ci.idx_x, cellAt toks ci.idx_y with
    | some xv, some yv =>
        if |yv| ≤ 90 ∧ |xv| ≤ 180 then
          some ((xv - meanLon) * metersPerDegLon meanLat, (yv - meanLat) * metersPerDegLat)
        else some (xv, yv)
    | _, _ => none
  else if ci.has_lonlat ∧ ci.idx_lon < (toks.length : Int) ∧ ci.idx_lat < (toks.length : Int) then
    match cellAt toks ci.idx_lon, cellAt toks ci.idx_lat with
    | some lon, some lat =>
        some ((lon - meanLon) * metersPerDegLon meanLat, (lat - meanLat) * metersPerDegLat)
    | _, _ => none
  else none

/-- simulate_real_manila.cc lines 168-183: the optional attributes are
parsed inside one try block with the defaults of line 134 (20 dBm,
3.5 GHz, 100 MHz, 250 m); the first `stod` throw abandons the rest of the
block, leaving later attributes at their defaults. -/
noncomputable def parseAttrs (ci : ColIdx) (toks : List (Option ℝ)) : ℝ × ℝ × ℝ × ℝ :=
  let readR := fun (tx fr bw : ℝ) =>
    if 0 ≤ ci.idx_r ∧ ci.idx_r < (toks.length : Int) then
      match cellAt toks ci.idx_r with
      | none => (tx, fr, bw, (250 : ℝ))
      | some r => (tx, fr, bw, r)
    else (tx, fr, bw, (250 : ℝ))
  let readBw := fun (tx fr : ℝ) =>
    if 0 ≤ ci.idx_bw ∧ ci.idx_bw < (toks.length : Int) then
      match cellAt toks ci.idx_bw with
      | none => (tx, fr, (100 : ℝ), 250)
      | some bw => readR tx fr bw
    else readR tx fr 100
  let readFr := fun (tx : ℝ) =>
    if 0 ≤ ci.idx_freq ∧ ci.idx_freq < (toks.length : Int) then
      match cellAt toks ci.idx_freq with
      | none => (tx, (3.5 : ℝ), 100, 250)
      | some fr => readBw tx fr
    else readBw tx 3.5
  if 0 ≤ ci.idx_tx ∧ ci.idx_tx < (toks.length : Int) then
    match cellAt toks ci.idx_tx with
    | none => ((20 : ℝ), 3.5, 100, 250)
    | some tx => readFr tx
  else readFr 20

/-- One row of simulate_real_manila.cc lines 131-199: the row is dropped
iff the coordinate parse fails (`if (!parsed) continue`); otherwise the
site is built from the coordinates and the attribute block. -/
noncomputable def parseRow (ci : ColIdx) (meanLon meanLat : ℝ)
    (toks : List (Option ℝ)) : Option Site :=
  match parseCoords ci meanLon meanLat toks with
  | none => none
  | some c =>
      let a := parseAttrs ci toks
      some ⟨c.1, c.2, a.1, a.2.1, a.2.2.1, a.2.2.2⟩

/-- simulate_real_manila.cc lines 204-206: the fold-from-infinity minimum,
modelled on nonempty lists as a fold from the head. -/
noncomputable def listMin : List ℝ → ℝ
  | [] => 0
  | x :: xs => xs.foldl min x

/-- simulate_real_manila.cc lines 203-213: shift every coordinate so the
minimum x and the minimum y each land exactly on the 200 m padding. -/
noncomputable def normalizeSites (sites : List Site) : List Site :=
  if sites.isEmpty then sites
  else
    let minx := listMin (sites.map Site.x_m)
    let miny := listMin (sites.map Site.y_m)
    sites.map fun s => { s with x_m := s.x_m - minx + 200, y_m := s.y_m - miny + 200 }

/-- simulate_real_manila.cc `ReadSites` after the file/header I/O: detect
columns from the header, compute the projection origin, parse each row,
and normalize.  (The fatal errors for an unopenable or header-less file,
and the skipping of blank lines, happen before this point.) -/
noncomputable def ReadSites (cols : List String) (rows : List (List (Option ℝ))) : List Site :=
  let ci := detectColumns cols
  let m := meanLonLat ci rows
  normalizeSites (rows.filterMap (parseRow ci m.1 m.2))

noncomputable def dummySite : Site := ⟨0, 0, 0, 0, 0, 0⟩

/-! ### Fold characterisation lemmas -/

theorem runManilaSinr_fold (acc : SinrAcc) (l : List ℚ) :
    l.foldl RsrpSinrCallback acc = ⟨acc.total + l.sum, acc.count + l.length⟩ := by
  induction l generalizing acc with
  | nil => simp
  | cons x xs ih =>
      rw [List.foldl_cons, ih]
      simp only [RsrpSinrCallback, SinrAcc.mk.injEq, List.sum_cons, List.length_cons]
      exact ⟨by ring, by omega⟩

theorem runManilaSinr_eq (samples : List ℚ) :
    runManilaSinr samples = ⟨samples.sum, samples.length⟩ := by
  have h := runManilaSinr_fold initSinrAcc samples
  simpa [runManilaSinr, initSinrAcc] using h

theorem runPupSinr_fold (acc : SinrAcc) (l : List (ℚ × ℚ)) :
    l.foldl (fun acc p => MonitorSnifferRxCallback acc p.1 p.2) acc
      = ⟨acc.total + (l.map (fun p => p.1 - p.2)).sum, acc.count + l.length⟩ := by
  induction l generalizing acc with
  | nil => simp
  | cons x xs ih =>
      rw [List.foldl_cons, ih]
      simp only [MonitorSnifferRxCallback, SinrAcc.mk.injEq, List.map_cons,
        List.sum_cons, List.length_cons]
      exact ⟨by ring, by omega⟩

theorem runPupSinr_eq (samples : List (ℚ × ℚ)) :
    runPupSinr samples = ⟨(samples.map (fun p => p.1 - p.2)).sum, samples.length⟩ := by
  have h := runPupSinr_fold initSinrAcc samples
  simpa [runPupSinr, initSinrAcc] using h

theorem flowTotals_fold (t : Totals) (flows : List FlowStats) :
    flows.foldl accumulateFlow t
      = ⟨t.totalTxPackets + (flows.map (fun f => (f.txPackets : ℚ))).sum,
         t.totalRxPackets + (flows.map (fun f => (f.rxPackets : ℚ))).sum,
         t.totalRxBytes + (flows.map (fun f => (f.rxBytes : ℚ))).sum,
         t.totalThroughput + (flows.map flowContribution).sum⟩ := by
  induction flows generalizing t with
  | nil => simp
  | cons f fs ih =>
      rw [List.foldl_cons, ih]
      simp only [accumulateFlow, Totals.mk.injEq, List.map_cons, List.sum_cons]
      refine ⟨by ring, by ring, by ring, ?_⟩
      simp only [flowContribution]
      split <;> ring

theorem flowTotals_eq (flows : List FlowStats) :
    flowTotals flows
      = ⟨(flows.map (fun f => (f.txPackets : ℚ))).sum,
         (flows.map (fun f => (f.rxPackets : ℚ))).sum,
         (flows.map (fun f => (f.rxBytes : ℚ))).sum,
         (flows.map flowContribution).sum⟩ := by
  have h := flowTotals_fold initTotals flows
  simpa [flowTotals, initTotals] using h

theorem throughput_filter : ∀ (flows : List FlowStats),
    (∀ f ∈ flows, f.rxPackets = 0 → f.rxBytes = 0) →
    (flows.map flowContribution).sum
      = ((flows.filter (fun f =>
            decide (0 < f.rxPackets ∧ 0 < f.timeLastRxPacket - f.timeFirstTxPacket))).map
          (fun f => ((f.rxBytes : ℚ) * 8)
            / ((f.timeLastRxPacket - f.timeFirstTxPacket) * 1000000))).sum := by
  intro flows
  induction flows with
  | nil => intro _; simp
  | cons f fs ih =>
      intro hinv
      have hf := hinv f (List.mem_cons_self f fs)
      have ih2 := ih (fun g hg => hinv g (List.mem_cons_of_mem f hg))
      rw [List.map_cons, List.sum_cons, List.filter_cons, ih2]
      by_cases hd : 0 < f.timeLastRxPacket - f.timeFirstTxPacket
      · by_cases hr : 0 < f.rxPackets
        · rw [if_pos (by simp [hr, hd]), List.map_cons, List.sum_cons]
          simp [flowContribution, hd]
        · have h0 : f.rxPackets = 0 := by omega
          have hb := hf h0
          rw [if_neg (by simp [hr])]
          simp [flowContribution, hd, hb]
      · rw [if_neg (by simp [hd])]
        simp [flowContribution, hd]

/-- C1: the SINR report honours the sample domain — the manila scenario
averages linear samples and converts with `10 * log10` (flooring at -100 dB
when the linear mean is non-positive, or when no sample was collected),
and the testbed scenario averages dB samples directly; but the zero-sample
sentinel is NOT the same across the two scenarios: with no collected
samples the manila scenario reports -100 dB while the testbed scenario
reports 0 dB. -/
theorem C1_counterexample :
    manilaAverageSinrDb (runManilaSinr []) = -100
    ∧ pupAverageSinr (runPupSinr []) = 0
    ∧ ((-100 : ℝ) ≠ ((0 : ℚ) : ℝ)) := by
  refine ⟨?_, ?_, by norm_num⟩
  · simp [manilaAverageSinrDb, runManilaSinr, initSinrAcc]
  · simp [pupAverageSinr, runPupSinr, initSinrAcc]

/-- C1 (amended): when every collected sample is linear (manila scenario),
the report is `10 * log10` of the arithmetic linear mean when that mean is
positive and the floor -100 dB otherwise; zero samples give -100 dB.  When
every sample is in dB (testbed scenario), the report is the arithmetic
mean of the per-packet `signal - noise` values; zero samples give the
testbed's own sentinel 0 dB, which differs from the manila sentinel. -/
theorem C1_amended_thm (lin : List ℚ) (db : List (ℚ × ℚ)) :
    (lin ≠ [] → 0 < lin.sum / (lin.length : ℚ) →
        manilaAverageSinrDb (runManilaSinr lin)
          = 10 * Real.logb 10 ((lin.sum / (lin.length : ℚ) : ℚ) : ℝ))
    ∧ (lin ≠ [] → lin.sum / (lin.length : ℚ) ≤ 0 →
        manilaAverageSinrDb (runManilaSinr lin) = -100)
    ∧ manilaAverageSinrDb (runManilaSinr []) = -100
    ∧ (db ≠ [] → pupAverageSinr (runPupSinr db)
          = (db.map (fun p => p.1 - p.2)).sum / (db.length : ℚ))
    ∧ pupAverageSinr (runPupSinr []) = 0 := by
  refine ⟨?_, ?_, ?_, ?_, ?_⟩
  · intro h1 h2
    rw [runManilaSinr_eq]
    have hl : 0 < lin.length := List.length_pos.mpr h1
    simp only [manilaAverageSinrDb]
    rw [if_pos hl, if_pos h2]
  · intro h1 h2
    rw [runManilaSinr_eq]
    have hl : 0 < lin.length := List.length_pos.mpr h1
    simp only [manilaAverageSinrDb]
    rw [if_pos hl, if_neg (not_lt.mpr h2)]
  · simp [manilaAverageSinrDb, runManilaSinr, initSinrAcc]
  · intro h1
    rw [runPupSinr_eq]
    have hl : 0 < db.length := List.length_pos.mpr h1
    simp only [pupAverageSinr]
    rw [if_pos hl]
  · simp [pupAverageSinr, runPupSinr, initSinrAcc]

theorem C1_witness :
    manilaAverageSinrDb (runManilaSinr [1, 2, 3])
      = 10 * Real.logb 10 (((([1, 2, 3] : List ℚ).sum / (([1, 2, 3] : List ℚ).length : ℚ)) : ℚ) : ℝ)
    ∧ pupAverageSinr (runPupSinr [(5, 2)]) = 3 := by
  constructor
  · exact (C1_amended_thm [1, 2, 3] [(5, 2)]).1 (by simp)
      (by norm_num [List.sum_cons, List.sum_nil, List.length_cons, List.length_nil])
  · have h := (C1_amended_thm [1, 2, 3] [(5, 2)]).2.2.2.1 (by simp)
    rw [h]
    norm_num [List.map_cons, List.map_nil, List.sum_cons, List.sum_nil]

/-- C2: the packet-loss ratio is `100 * (sum tx - sum rx) / (sum tx)` when
the transmitted-packet sum is positive in both scenarios, but the claim
that a zero-traffic trial always reports 100% loss fails: the manila
scenario initialises the ratio to 0 and never overwrites it when the tx
sum is zero, so a zero-traffic trial there reports 0% loss. -/
theorem C2_counterexample :
    manilaPacketLoss [⟨0, 0, 0, 0, 0⟩] = 0 ∧ (0 : ℚ) ≠ 100 := by
  refine ⟨?_, by norm_num⟩
  simp [manilaPacketLoss, flowTotals_eq]

/-- C2 (amended): with a positive tx sum both scenarios report
`100 * (sum tx - sum rx) / sum tx`; with a zero tx sum the testbed
scenario reports 100% but the manila scenario reports 0%, so only the
testbed prevents a zero-traffic trial from reporting success. -/
theorem C2_amended_thm (flows : List FlowStats) :
    (0 < (flows.map (fun f => (f.txPackets : ℚ))).sum →
        manilaPacketLoss flows
            = 100 * ((flows.map (fun f => (f.txPackets : ℚ))).sum
                - (flows.map (fun f => (f.rxPackets : ℚ))).sum)
              / (flows.map (fun f => (f.txPackets : ℚ))).sum
          ∧ pupPacketLoss flows
            = 100 * ((flows.map (fun f => (f.txPackets : ℚ))).sum
                - (flows.map (fun f => (f.rxPackets : ℚ))).sum)
              / (flows.map (fun f => (f.txPackets : ℚ))).sum)
    ∧ ((flows.map (fun f => (f.txPackets : ℚ))).sum = 0 →
        manilaPacketLoss flows = 0 ∧ pupPacketLoss flows = 100) := by
  constructor
  · intro h
    constructor
    · simp only [manilaPacketLoss, flowTotals_eq]
      rw [if_pos h]; ring
    · simp only [pupPacketLoss, flowTotals_eq]
      rw [if_pos h]; ring
  · intro h
    constructor
    · simp only [manilaPacketLoss, flowTotals_eq]
      rw [if_neg (by rw [h]; exact lt_irrefl 0)]
    · simp only [pupPacketLoss, flowTotals_eq]
      rw [if_neg (by rw [h]; exact lt_irrefl 0)]

theorem C2_witness :
    manilaPacketLoss [⟨100, 60, 0, 0, 0⟩] = 40 ∧ pupPacketLoss [] = 100 := by
  constructor
  · have h := (C2_amended_thm [⟨100, 60, 0, 0, 0⟩]).1
      (by norm_num [List.map_cons, List.map_nil, List.sum_cons, List.sum_nil])
    rw [h.1]
    norm_num [List.map_cons, List.map_nil, List.sum_cons, List.sum_nil]
  · exact ((C2_amended_thm []).2 (by simp)).2

/-- C3: aggregate throughput equals the sum, over flows with received
packets and strictly positive active duration, of
`(rxBytes * 8) / (duration * 1e6)` Mbps; a flow with non-positive duration
contributes exactly zero, and a flow of 1,250,000 received bytes over a
1 second duration contributes exactly 10 Mbps.  (Stated under the
FlowMonitor invariant that a flow with zero received packets has zero
received bytes.) -/
theorem C3_thm (flows : List FlowStats)
    (hinv : ∀ f ∈ flows, f.rxPackets = 0 → f.rxBytes = 0) :
    (flowTotals flows).totalThroughput
        = ((flows.filter (fun f =>
              decide (0 < f.rxPackets ∧ 0 < f.timeLastRxPacket - f.timeFirstTxPacket))).map
            (fun f => ((f.rxBytes : ℚ) * 8)
              / ((f.timeLastRxPacket - f.timeFirstTxPacket) * 1000000))).sum
    ∧ (∀ f : FlowStats, f.timeLastRxPacket - f.timeFirstTxPacket ≤ 0 →
        flowContribution f = 0)
    ∧ flowContribution ⟨100, 80, 1250000, 1, 2⟩ = 10 := by
  refine ⟨?_, ?_, by norm_num [flowContribution]⟩
  · rw [flowTotals_eq]
    exact throughput_filter flows hinv
  · intro f h
    simp [flowContribution, not_lt.mpr h]

theorem C3_witness :
    flowContribution ⟨100, 80, 1250000, 1, 2⟩ = 10
    ∧ flowContribution ⟨5, 5, 999, 3, 3⟩ = 0 := by
  have h := C3_thm [⟨100, 80, 1250000, 1, 2⟩]
    (by intro f hf hz; simp only [List.mem_singleton] at hf; subst hf; simp at hz)
  exact ⟨h.2.2, h.2.1 ⟨5, 5, 999, 3, 3⟩ (by norm_num)⟩

/-- C6: the energy model is NOT `n * p` for an explicit per-site power
parameter: manila's `CalculateTotalEnergy` ignores its power argument and
multiplies the active count by the hidden literal 130.0, so with
per-site power 50 it still returns 1300 instead of 500. -/
theorem C6_counterexample :
    CalculateTotalEnergy 10 50 = 1300 ∧ (10 : ℚ) * 50 = 500
    ∧ (1300 : ℚ) ≠ 500 := by
  refine ⟨by norm_num [CalculateTotalEnergy], by norm_num, by norm_num⟩

/-- C6 (amended): each scenario's energy model multiplies the active-site
count by a scenario-fixed hidden constant — 130 W in the manila scenario
(whose power argument is ignored) and 10.5 W in the testbed scenario; in
particular `CalculateTotalEnergy 10 p = 1300` and
`CalculateTotalEnergy 0 p = 0` for every `p`, with no failure modes. -/
theorem C6_amended_thm (n : ℕ) (m : ℤ) (p q : ℚ) :
    CalculateTotalEnergy n p = CalculateTotalEnergy n q
    ∧ CalculateTotalEnergy n p = 130 * (n : ℚ)
    ∧ CalculateTestbedEnergy m = 10.5 * (m : ℚ)
    ∧ CalculateTotalEnergy 10 130 = 1300
    ∧ CalculateTotalEnergy 0 130 = 0 := by
  refine ⟨rfl, rfl, by simp [CalculateTestbedEnergy, mul_comm],
    by norm_num [CalculateTotalEnergy], by norm_num [CalculateTotalEnergy]⟩

theorem countP_add_countP_not {α : Type} (p : α → Bool) : ∀ (l : List α),
    l.countP p + l.countP (fun x => !p x) = l.length := by
  intro l
  induction l with
  | nil => rfl
  | cons a l ih =>
      rw [List.countP_cons, List.countP_cons, List.length_cons]
      cases h : p a <;> simp [h] <;> omega

theorem getD_map_of_lt {α β : Type} (f : α → β) (d : β) (d2 : α) :
    ∀ (l : List α) (i : ℕ), i < l.length → (l.map f).getD i d = f (l.getD i d2) := by
  intro l
  induction l with
  | nil => intro i h; simp at h
  | cons a l ih =>
      intro i h
      cases i with
      | zero => rfl
      | succ n =>
          rw [List.map_cons, List.getD_cons_succ, List.getD_cons_succ]
          exact ih n (by simpa using h)

theorem manilaExcluded_iff (mask : List Char) (i : ℕ) :
    manilaExcluded mask i = true ↔ i < mask.length ∧ mask.getD i ' ' = '0' := by
  simp only [manilaExcluded, Bool.and_eq_true, decide_eq_true_eq, beq_iff_eq]
  constructor
  · rintro ⟨⟨_, h2⟩, h3⟩; exact ⟨h2, h3⟩
  · rintro ⟨h2, h3⟩
    exact ⟨⟨Nat.lt_of_le_of_lt (Nat.zero_le i) h2, h2⟩, h3⟩

theorem manilaProcessRow_maskReads (st : ManilaState) (ln : RawLine) :
    (manilaProcessRow st ln).maskReads = st.maskReads := by
  rw [manilaProcessRow]
  split <;> rfl

theorem manilaProcessRow_towerIndex_of_long (st : ManilaState) (ln : RawLine)
    (h : 5 ≤ ln.fields.length) :
    (manilaProcessRow st ln).towerIndex = st.towerIndex + 1
    ∧ (manilaProcessRow st ln).activeCount = st.activeCount + 1 := by
  rw [manilaProcessRow]
  have : ¬ ((ln.fields.map (fun c => c.getD 0)).length < 5) := by
    rw [List.length_map]; omega
  rw [if_neg this]
  exact ⟨rfl, rfl⟩

theorem manilaStep_wf (mask : List Char) (st : ManilaState) (ln : RawLine)
    (h1 : ln.emptyLine = false) (h2 : 5 ≤ ln.fields.length) :
    (manilaStep mask st ln).towerIndex = st.towerIndex + 1
    ∧ (manilaStep mask st ln).activeCount
        = st.activeCount + (if manilaExcluded mask st.towerIndex then 0 else 1) := by
  rw [manilaStep, h1]
  simp only [Bool.false_eq_true, if_false]
  by_cases hg : 0 < mask.length ∧ st.towerIndex < mask.length
  · rw [if_pos hg]
    by_cases hc : mask.getD st.towerIndex ' ' = '0'
    · rw [if_pos hc]
      have hex : manilaExcluded mask st.towerIndex = true :=
        (manilaExcluded_iff mask st.towerIndex).mpr ⟨hg.2, hc⟩
      rw [hex]
      exact ⟨rfl, rfl⟩
    · rw [if_neg hc]
      have hex : manilaExcluded mask st.towerIndex = false :=
        Bool.eq_false_iff.mpr
          (fun hT => hc ((manilaExcluded_iff mask st.towerIndex).mp hT).2)
      rw [hex]
      exact manilaProcessRow_towerIndex_of_long _ ln h2
  · rw [if_neg hg]
    have hex : manilaExcluded mask st.towerIndex = false := by
      apply Bool.eq_false_iff.mpr
      intro hT
      have h := (manilaExcluded_iff mask st.towerIndex).mp hT
      exact hg ⟨Nat.lt_of_le_of_lt (Nat.zero_le _) h.1, h.1⟩
    rw [hex]
    exact manilaProcessRow_towerIndex_of_long _ ln h2

theorem manilaRun_go (mask : List Char) : ∀ (lns : List RawLine) (st : ManilaState),
    (∀ ln ∈ lns, ln.emptyLine = false ∧ 5 ≤ ln.fields.length) →
    (lns.foldl (manilaStep mask) st).towerIndex = st.towerIndex + lns.length
    ∧ (lns.foldl (manilaStep mask) st).activeCount
        = st.activeCount
          + (List.range' st.towerIndex lns.length).countP (fun i => !manilaExcluded mask i) := by
  intro lns
  induction lns with
  | nil => intro st _; simp
  | cons ln lns ih =>
      intro st hwf
      have hln := hwf ln (List.mem_cons_self ln lns)
      have hstep := manilaStep_wf mask st ln hln.1 hln.2
      rw [List.foldl_cons]
      have ih2 := ih (manilaStep mask st ln) (fun g hg => hwf g (List.mem_cons_of_mem ln hg))
      rw [List.length_cons, List.range'_succ]
      constructor
      · rw [ih2.1, hstep.1]; omega
      · rw [ih2.2, hstep.1, hstep.2, List.countP_cons]
        cases h : manilaExcluded mask st.towerIndex <;> simp [h] <;> omega

theorem manilaStep_reads (mask : List Char) (st : ManilaState) (ln : RawLine)
    (hst : ∀ i ∈ st.maskReads, i < mask.length) :
    ∀ i ∈ (manilaStep mask st ln).maskReads, i < mask.length := by
  intro i hi
  rw [manilaStep] at hi
  by_cases he : ln.emptyLine = true
  · rw [if_pos he] at hi; exact hst i hi
  · rw [if_neg he] at hi
    by_cases hg : 0 < mask.length ∧ st.towerIndex < mask.length
    · rw [if_pos hg] at hi
      by_cases hc : mask.getD st.towerIndex ' ' = '0'
      · rw [if_pos hc] at hi
        rcases List.mem_append.mp hi with h | h
        · exact hst i h
        · rw [List.mem_singleton] at h; subst h; exact hg.2
      · rw [if_neg hc, manilaProcessRow_maskReads] at hi
        rcases List.mem_append.mp hi with h | h
        · exact hst i h
        · rw [List.mem_singleton] at h; subst h; exact hg.2
    · rw [if_neg hg, manilaProcessRow_maskReads] at hi
      exact hst i hi

theorem maskReads_bound (mask : List Char) : ∀ (lns : List RawLine) (st : ManilaState),
    (∀ i ∈ st.maskReads, i < mask.length) →
    ∀ i ∈ (lns.foldl (manilaStep mask) st).maskReads, i < mask.length := by
  intro lns
  induction lns with
  | nil => intro st hst; simpa using hst
  | cons ln lns ih =>
      intro st hst
      rw [List.foldl_cons]
      exact ih (manilaStep mask st ln) (manilaStep_reads mask st ln hst)

/-- C4: the mask-selection rule "excluded iff in mask bounds with character
'0', included otherwise — in particular every index beyond the mask's
length is included, and an empty mask activates every site" fails in the
testbed scenario (PUPtestbedns3.cc): a router is counted active only when
its mask character is exactly `'1'`, so with a 16-character all-ones mask
router index 16 — which is beyond the mask's bounds, where the claim
demands inclusion — reads the null terminator and is NOT counted, giving
16 active routers out of 17. -/
theorem C4_counterexample :
    (List.replicate 16 '1').length = 16
    ∧ pupIsActive (List.replicate 16 '1') 16 = false
    ∧ pupActiveCount (List.replicate 16 '1') = 16 := by
  exact ⟨by simp, by decide, by decide⟩

/-- C4 (amended): in the manila scenario the selector behaves exactly as
claimed for well-formed rows: a row is excluded iff its tower index is
within the mask and the character there is `'0'`; `activeCount` plus the
number of excluded indices equals the total row count; an empty mask makes
every row active.  In the testbed scenario, by contrast, index `i` is
active iff `i` is within the mask and the character there is `'1'` — so
indices beyond the mask's length are inactive, not active — and
`pupActiveCount + pupInactiveCount = 17` always. -/
theorem C4_amended_thm (mask : List Char) (lns : List RawLine) (i : ℕ)
    (hwf : ∀ ln ∈ lns, ln.emptyLine = false ∧ 5 ≤ ln.fields.length) :
    (manilaRun mask lns).activeCount
        + (List.range' 0 lns.length).countP (fun j => manilaExcluded mask j) = lns.length
    ∧ (manilaExcluded mask i = true ↔ i < mask.length ∧ mask.getD i ' ' = '0')
    ∧ (mask = [] → (manilaRun mask lns).activeCount = lns.length)
    ∧ (pupIsActive mask i = true ↔ i < mask.length ∧ mask.getD i (Char.ofNat 0) = '1')
    ∧ pupActiveCount mask + pupInactiveCount mask = 17 := by
  have hrun := manilaRun_go mask lns initManilaState hwf
  refine ⟨?_, ?_, ?_, ?_, ?_⟩
  · rw [manilaRun, hrun.2]
    have := countP_add_countP_not (fun j => manilaExcluded mask j) (List.range' 0 lns.length)
    rw [List.length_range'] at this
    simp only [initManilaState] at *
    omega
  · exact manilaExcluded_iff mask i
  · intro hm
    subst hm
    rw [manilaRun, hrun.2]
    have hz : ∀ j, (fun j => !manilaExcluded ([] : List Char) j) j = true := by
      intro j; simp [manilaExcluded]
    rw [List.countP_eq_length_filter, List.filter_eq_self.mpr (fun a _ => hz a)]
    simp [initManilaState]
  · simp only [pupIsActive, pupCharAt, beq_iff_eq]
    constructor
    · intro h
      by_cases hi : i < mask.length
      · exact ⟨hi, h⟩
      · rw [List.getD_eq_default _ _ (by omega)] at h
        exact absurd h (by decide)
    · rintro ⟨_, h⟩; exact h
  · rw [pupActiveCount, pupInactiveCount, ← List.countP_eq_length_filter,
      ← List.countP_eq_length_filter]
    have := countP_add_countP_not (fun j => pupIsActive mask j) (List.range 17)
    simpa using this

theorem C4_witness :
    (manilaRun ['1', '0'] [⟨false, [none, none, none, none, none]⟩,
        ⟨false, [none, none, none, none, none]⟩,
        ⟨false, [none, none, none, none, none]⟩]).activeCount
        + (List.range' 0 3).countP (fun j => manilaExcluded ['1', '0'] j) = 3
    ∧ pupActiveCount ['1', '0', '1'] + pupInactiveCount ['1', '0', '1'] = 17 := by
  have h := C4_amended_thm ['1', '0'] [⟨false, [none, none, none, none, none]⟩,
      ⟨false, [none, none, none, none, none]⟩,
      ⟨false, [none, none, none, none, none]⟩] 1
    (by intro ln hln
        simp only [List.mem_cons, List.not_mem_nil, or_false] at hln
        rcases hln with h | h | h <;> subst h <;> exact ⟨rfl, by simp⟩)
  have h2 := C4_amended_thm ['1', '0', '1'] [] 0 (by intro ln hln; cases hln)
  exact ⟨h.1, h2.2.2.2.2⟩

/-- C7: "the program reads only in-bounds mask positions for every mask
string" fails in the testbed scenario: PUPtestbedns3.cc subscripts
`activeMask[i]` for every `i` in `0..16` regardless of the mask's length,
so a 3-character mask is read at position 5 (and beyond), outside its
bounds. -/
theorem C7_counterexample :
    5 ∈ pupMaskReadIndices ∧ (List.replicate 3 '1').length = 3 ∧ ¬ (5 < 3) := by
  exact ⟨by decide, by simp, by omega⟩

/-- C7 (amended): the manila scenario is total over masks of every length —
every subscript it performs on the mask string is strictly within the
mask's bounds, for arbitrary input lines — while the testbed scenario
unconditionally reads mask positions 0..16, so for every mask shorter than
17 characters some position at or beyond the mask's length is read. -/
theorem C7_amended_thm (mask : List Char) (lns : List RawLine) :
    (∀ i ∈ (manilaRun mask lns).maskReads, i < mask.length)
    ∧ (∀ m : List Char, m.length < 17 → ∃ i ∈ pupMaskReadIndices, m.length ≤ i) := by
  constructor
  · exact maskReads_bound mask lns initManilaState (by intro i hi; cases hi)
  · intro m hm
    exact ⟨16, by decide, by omega⟩

theorem C7_witness :
    (manilaRun ['1', '0'] [⟨false, [none, none, none, none, none]⟩]).maskReads = [0]
    ∧ (0 : ℕ) < 2
    ∧ (∃ i ∈ pupMaskReadIndices, (List.replicate 3 '1').length ≤ i) := by
  refine ⟨by decide, ?_, ?_⟩
  · exact (C7_amended_thm ['1', '0'] [⟨false, [none, none, none, none, none]⟩]).1 0 (by decide)
  · exact (C7_amended_thm ['1', '0'] [⟨false, [none, none, none, none, none]⟩]).2
      (List.replicate 3 '1') (by simp)

/-- C10: in the manila loader every comma-separated field whose
`std::stod` fails is replaced by 0.0 and never rejects the row: a
non-empty, non-masked-off line with at least 5 fields always installs a
tower whose coordinates, power and bandwidth are the parsed values with
0 substituted for each failed field (so an all-unparsable row yields a
tower at (0,0) with 0 dBm); a line with fewer than 5 fields is skipped
and leaves the tower list, active count and tower index unchanged. -/
theorem C10_thm (mask : List Char) (st : ManilaState) (ln : RawLine)
    (hne : ln.emptyLine = false)
    (hmask : manilaExcluded mask st.towerIndex = false) :
    (5 ≤ ln.fields.length →
        (manilaStep mask st ln).towers
            = st.towers ++ [⟨(ln.fields.getD 0 none).getD 0, (ln.fields.getD 1 none).getD 0,
                (ln.fields.getD 2 none).getD 0, (ln.fields.getD 4 none).getD 0⟩]
        ∧ (manilaStep mask st ln).activeCount = st.activeCount + 1)
    ∧ (ln.fields.length < 5 →
        (manilaStep mask st ln).towers = st.towers
        ∧ (manilaStep mask st ln).activeCount = st.activeCount
        ∧ (manilaStep mask st ln).towerIndex = st.towerIndex) := by
  have hproc : ∀ (s : ManilaState), s.towers = st.towers → s.activeCount = st.activeCount →
      s.towerIndex = st.towerIndex →
      (5 ≤ ln.fields.length →
        (manilaProcessRow s ln).towers
            = st.towers ++ [⟨(ln.fields.getD 0 none).getD 0, (ln.fields.getD 1 none).getD 0,
                (ln.fields.getD 2 none).getD 0, (ln.fields.getD 4 none).getD 0⟩]
        ∧ (manilaProcessRow s ln).activeCount = st.activeCount + 1)
      ∧ (ln.fields.length < 5 →
        (manilaProcessRow s ln).towers = st.towers
        ∧ (manilaProcessRow s ln).activeCount = st.activeCount
        ∧ (manilaProcessRow s ln).towerIndex = st.towerIndex) := by
    intro s hs1 hs2 hs3
    constructor
    · intro hlen
      rw [manilaProcessRow]
      have hnl : ¬ ((ln.fields.map (fun c => c.getD 0)).length < 5) := by
        rw [List.length_map]; omega
      rw [if_neg hnl]
      have e0 := getD_map_of_lt (fun c => c.getD 0) 0 none ln.fields 0 (by omega)
      have e1 := getD_map_of_lt (fun c => c.getD 0) 0 none ln.fields 1 (by omega)
      have e2 := getD_map_of_lt (fun c => c.getD 0) 0 none ln.fields 2 (by omega)
      have e4 := getD_map_of_lt (fun c => c.getD 0) 0 none ln.fields 4 (by omega)
      refine ⟨?_, by simp only []; omega⟩
      simp only [e0, e1, e2, e4, hs1]
    · intro hlen
      rw [manilaProcessRow]
      have hl : (ln.fields.map (fun c => c.getD 0)).length < 5 := by
        rw [List.length_map]; omega
      rw [if_pos hl]
      exact ⟨hs1, hs2, hs3⟩
  rw [manilaStep, hne]
  simp only [Bool.false_eq_true, if_false]
  by_cases hg : 0 < mask.length ∧ st.towerIndex < mask.length
  · rw [if_pos hg]
    have hc : ¬ (mask.getD st.towerIndex ' ' = '0') := by
      intro hc0
      have hT := (manilaExcluded_iff mask st.towerIndex).mpr ⟨hg.2, hc0⟩
      rw [hT] at hmask
      cases hmask
    rw [if_neg hc]
    exact hproc _ rfl rfl rfl
  · rw [if_neg hg]
    exact hproc st rfl rfl rfl

theorem C10_witness :
    (manilaStep [] initManilaState ⟨false, [none, none, none, none, none]⟩).towers
        = [({ x := 0, y := 0, txPower := 0, bwMHz := 0 } : Tower)]
    ∧ (manilaStep [] initManilaState ⟨false, [none, none]⟩).towers = [] := by
  have h1 := C10_thm [] initManilaState ⟨false, [none, none, none, none, none]⟩ rfl (by decide)
  have h2 := C10_thm [] initManilaState ⟨false, [none, none]⟩ rfl (by decide)
  constructor
  · have := (h1.1 (by norm_num)).1
    simpa [initManilaState] using this
  · have := (h2.2 (by norm_num)).1
    simpa [initManilaState] using this

theorem listMin_map_add (a : ℝ) (x : ℝ) (xs : List ℝ) :
    listMin ((x :: xs).map (fun v => v + a)) = listMin (x :: xs) + a := by
  rw [List.map_cons]
  show (xs.map (fun v => v + a)).foldl min (x + a) = xs.foldl min x + a
  induction xs generalizing x with
  | nil => rfl
  | cons y ys ih =>
      rw [List.map_cons, List.foldl_cons, List.foldl_cons, min_add_add_right]
      exact ih (min x y)

theorem normalizeSites_cons (s0 : Site) (rest : List Site) :
    normalizeSites (s0 :: rest)
      = (s0 :: rest).map (fun s =>
          { s with x_m := s.x_m - listMin ((s0 :: rest).map Site.x_m) + 200,
                   y_m := s.y_m - listMin ((s0 :: rest).map Site.y_m) + 200 }) := by
  rw [normalizeSites]
  rfl

theorem normalizeSites_map_x (s0 : Site) (rest : List Site) :
    (normalizeSites (s0 :: rest)).map Site.x_m
      = ((s0 :: rest).map Site.x_m).map
          (fun v => v + (200 - listMin ((s0 :: rest).map Site.x_m))) := by
  rw [normalizeSites_cons, List.map_map, List.map_map]
  congr 1
  funext s
  simp only [Function.comp]
  ring

theorem normalizeSites_map_y (s0 : Site) (rest : List Site) :
    (normalizeSites (s0 :: rest)).map Site.y_m
      = ((s0 :: rest).map Site.y_m).map
          (fun v => v + (200 - listMin ((s0 :: rest).map Site.y_m))) := by
  rw [normalizeSites_cons, List.map_map, List.map_map]
  congr 1
  funext s
  simp only [Function.comp]
  ring

theorem normalizeSites_min (s0 : Site) (rest : List Site) :
    listMin ((normalizeSites (s0 :: rest)).map Site.x_m) = 200
    ∧ listMin ((normalizeSites (s0 :: rest)).map Site.y_m) = 200 := by
  constructor
  · rw [normalizeSites_map_x, List.map_cons, listMin_map_add, ← List.map_cons]
    ring
  · rw [normalizeSites_map_y, List.map_cons, listMin_map_add, ← List.map_cons]
    ring

theorem site_eta_shift (s : Site) :
    ({ s with x_m := s.x_m - 200 + 200, y_m := s.y_m - 200 + 200 } : Site) = s := by
  cases s
  congr 1 <;> ring

theorem normalizeSites_idem (s0 : Site) (rest : List Site) :
    normalizeSites (normalizeSites (s0 :: rest)) = normalizeSites (s0 :: rest) := by
  have hmin := normalizeSites_min s0 rest
  obtain ⟨h, t, hht⟩ : ∃ h t, normalizeSites (s0 :: rest) = h :: t :=
    ⟨_, _, by rw [normalizeSites_cons, List.map_cons]⟩
  rw [hht] at hmin ⊢
  rw [normalizeSites_cons h t, hmin.1, hmin.2]
  rw [List.map_congr_left (fun s _ => site_eta_shift s)]
  simp

/-- C5: coordinate normalization on a non-empty site list puts the minimum
x and minimum y exactly on the 200 m padding constant, preserves every
pairwise coordinate difference, is idempotent, and maps the empty list to
the empty list. -/
theorem C5_thm (sites : List Site) (hne : sites ≠ []) :
    listMin ((normalizeSites sites).map Site.x_m) = 200
    ∧ listMin ((normalizeSites sites).map Site.y_m) = 200
    ∧ (∀ i j, i < sites.length → j < sites.length →
        ((normalizeSites sites).getD i dummySite).x_m
            - ((normalizeSites sites).getD j dummySite).x_m
          = (sites.getD i dummySite).x_m - (sites.getD j dummySite).x_m
        ∧ ((normalizeSites sites).getD i dummySite).y_m
            - ((normalizeSites sites).getD j dummySite).y_m
          = (sites.getD i dummySite).y_m - (sites.getD j dummySite).y_m)
    ∧ normalizeSites (normalizeSites sites) = normalizeSites sites
    ∧ normalizeSites ([] : List Site) = [] := by
  obtain ⟨s0, rest, rfl⟩ := List.exists_cons_of_ne_nil hne
  refine ⟨(normalizeSites_min s0 rest).1, (normalizeSites_min s0 rest).2, ?_,
    normalizeSites_idem s0 rest, rfl⟩
  intro i j hi hj
  rw [normalizeSites_cons]
  rw [getD_map_of_lt _ dummySite dummySite _ i hi, getD_map_of_lt _ dummySite dummySite _ j hj]
  constructor <;> ring

theorem C5_witness :
    listMin ((normalizeSites [⟨5, 7, 1, 2, 3, 4⟩]).map Site.x_m) = 200
    ∧ normalizeSites (normalizeSites [⟨5, 7, 1, 2, 3, 4⟩]) = normalizeSites [⟨5, 7, 1, 2, 3, 4⟩] := by
  exact ⟨(C5_thm [⟨5, 7, 1, 2, 3, 4⟩] (by simp)).1,
    (C5_thm [⟨5, 7, 1, 2, 3, 4⟩] (by simp)).2.2.2.1⟩

theorem normalizeSites_length (sites : List Site) :
    (normalizeSites sites).length = sites.length := by
  cases sites with
  | nil => rfl
  | cons s rest => rw [normalizeSites_cons, List.length_map]

theorem meanStep_eq (ci : ColIdx) (a : ℝ × ℝ × ℕ) (toks : List (Option ℝ)) :
    meanStep ci a toks
      = (match rowPair ci toks with
         | some p => (a.1 + p.1, a.2.1 + p.2, a.2.2 + 1)
         | none => a) := by
  rw [meanStep, rowPair]
  by_cases hg : ci.idx_lon < (toks.length : Int) ∧ ci.idx_lat < (toks.length : Int)
  · rw [if_pos hg, if_pos hg]
    cases cellAt toks ci.idx_lon <;> cases cellAt toks ci.idx_lat <;> rfl
  · rw [if_neg hg, if_neg hg]

theorem meanStep_fold (ci : ColIdx) : ∀ (rows : List (List (Option ℝ))) (a : ℝ × ℝ × ℕ),
    rows.foldl (meanStep ci) a
      = (a.1 + ((lonLatPairs ci rows).map Prod.fst).sum,
         a.2.1 + ((lonLatPairs ci rows).map Prod.snd).sum,
         a.2.2 + (lonLatPairs ci rows).length) := by
  intro rows
  induction rows with
  | nil => intro a; simp [lonLatPairs]
  | cons r rs ih =>
      intro a
      rw [List.foldl_cons, ih, meanStep_eq]
      simp only [lonLatPairs, List.filterMap_cons]
      cases hp : rowPair ci r with
      | none => simp only [hp]
      | some p =>
          simp only [hp, List.map_cons, List.sum_cons, List.length_cons]
          refine congrArg₂ Prod.mk (by ring) (congrArg₂ Prod.mk (by ring) (by omega))

theorem parseAttrs_all_default (ci : ColIdx) (toks : List (Option ℝ))
    (htx : cellAt toks ci.idx_tx = none) (hfr : cellAt toks ci.idx_freq = none)
    (hbw : cellAt toks ci.idx_bw = none) (hr : cellAt toks ci.idx_r = none) :
    parseAttrs ci toks = (20, 3.5, 100, 250) := by
  simp only [parseAttrs, htx, hfr, hbw, hr]
  split_ifs <;> rfl

/-- C9: the claim that "a value pair is treated as degrees exactly when
|lat| <= 90 and |lon| <= 180, otherwise as meters" is false: a pair read
from dedicated lon/lat columns is always projected as degrees, even when
its latitude magnitude exceeds 90 — here lat = 95 is converted to
y = 95 * 111320 m rather than being kept as the meter value 95. -/
theorem C9_counterexample :
    (90 : ℝ) < |(95 : ℝ)|
    ∧ (parseCoords ⟨false, true, -1, -1, 0, 1, -1, -1, -1, -1⟩ 0 0 [some 10, some 95]).map
        Prod.snd = some ((95 : ℝ) * 111320)
    ∧ ((95 : ℝ) * 111320) ≠ 95 := by
  refine ⟨by norm_num, ?_, by norm_num⟩
  rw [parseCoords]
  rw [if_neg (by simp)]
  rw [if_pos ⟨rfl, by norm_num, by norm_num⟩]
  simp only [show cellAt [some (10 : ℝ), some 95] 0 = some 10 from rfl,
    show cellAt [some (10 : ℝ), some 95] 1 = some 95 from rfl]
  simp only [Option.map_some']
  rw [metersPerDegLat]
  norm_num

/-- C9 (amended): when lon/lat come from dedicated lon/lat columns they
are always projected as degrees — x = (lon − meanLon)·111320·cos(meanLat
in radians), y = (lat − meanLat)·111320 — with no magnitude check; the
|lat| <= 90 ∧ |lon| <= 180 heuristic applies only to values read from x/y
columns, which are otherwise kept as meters.  The projection origin is the
arithmetic mean of the parseable (lon, lat) pairs, the fixed Manila center
(120.98, 14.59) when lon/lat columns exist but no pair parses, and (0, 0)
when no lon/lat column exists at all. -/
theorem C9_amended_thm (ci : ColIdx) (mLon mLat lon lat xv yv : ℝ)
    (toks : List (Option ℝ)) (rows : List (List (Option ℝ))) :
    (ci.has_xy = false → ci.has_lonlat = true →
      ci.idx_lon < (toks.length : Int) → ci.idx_lat < (toks.length : Int) →
      cellAt toks ci.idx_lon = some lon → cellAt toks ci.idx_lat = some lat →
      parseCoords ci mLon mLat toks
        = some ((lon - mLon) * (111320 * Real.cos (mLat * Real.pi / 180)),
            (lat - mLat) * 111320))
    ∧ (ci.has_xy = true → ci.idx_x < (toks.length : Int) → ci.idx_y < (toks.length : Int) →
      cellAt toks ci.idx_x = some xv → cellAt toks ci.idx_y = some yv →
      parseCoords ci mLon mLat toks
        = if |yv| ≤ 90 ∧ |xv| ≤ 180 then
            some ((xv - mLon) * (111320 * Real.cos (mLat * Real.pi / 180)),
              (yv - mLat) * 111320)
          else some (xv, yv))
    ∧ (ci.has_lonlat = false → meanLonLat ci rows = (0, 0))
    ∧ (ci.has_lonlat = true → lonLatPairs ci rows = [] → meanLonLat ci rows = (120.98, 14.59))
    ∧ (ci.has_lonlat = true → lonLatPairs ci rows ≠ [] →
        meanLonLat ci rows
          = (((lonLatPairs ci rows).map Prod.fst).sum / ((lonLatPairs ci rows).length : ℝ),
             ((lonLatPairs ci rows).map Prod.snd).sum / ((lonLatPairs ci rows).length : ℝ))) := by
  refine ⟨?_, ?_, ?_, ?_, ?_⟩
  · intro h1 h2 h3 h4 h5 h6
    rw [parseCoords, if_neg (by simp [h1]), if_pos ⟨h2, h3, h4⟩]
    simp only [h5, h6]
    rw [metersPerDegLon, metersPerDegLat]
  · intro h1 h2 h3 h4 h5
    rw [parseCoords, if_pos ⟨h1, h2, h3⟩]
    simp only [h4, h5]
    rw [metersPerDegLon, metersPerDegLat]
  · intro h
    rw [meanLonLat, if_neg (by simp [h])]
  · intro h hnil
    simp only [meanLonLat, h, if_true]
    rw [meanStep_fold, hnil]
    simp
  · intro h hnil
    simp only [meanLonLat, h, if_true]
    rw [meanStep_fold]
    have hpos : 0 < (lonLatPairs ci rows).length := List.length_pos.mpr hnil
    rw [if_pos (by simpa using hpos)]
    simp

theorem C9_witness :
    parseCoords ⟨false, true, -1, -1, 0, 1, -1, -1, -1, -1⟩ 0 0 [some 3, some 4]
      = some (((3 : ℝ) - 0) * (111320 * Real.cos ((0 : ℝ) * Real.pi / 180)),
          ((4 : ℝ) - 0) * 111320)
    ∧ meanLonLat ⟨true, false, 0, 1, -1, -1, -1, -1, -1, -1⟩ [] = (0, 0) := by
  constructor
  · exact (C9_amended_thm ⟨false, true, -1, -1, 0, 1, -1, -1, -1, -1⟩ 0 0 3 4 0 0
      [some 3, some 4] []).1 rfl rfl (by norm_num) (by norm_num) rfl rfl
  · exact (C9_amended_thm ⟨true, false, 0, 1, -1, -1, -1, -1, -1, -1⟩ 0 0 0 0 0 0
      [] []).2.2.1 rfl

/-- C8: the claim "a row is dropped only when it contains no interpretable
coordinate pair" is false: with both x/y and lon/lat columns in the
header, a row whose x/y cells are malformed is dropped by the single
try/catch even though its lon/lat cells parse — this 1-row file with an
interpretable (120.98, 14.59) lon/lat pair loads zero sites. -/
theorem C8_counterexample :
    cellAt [none, none, some 120.98, some 14.59]
        (detectColumns ["x", "y", "lon", "lat"]).idx_lon = some 120.98
    ∧ cellAt [none, none, some 120.98, some 14.59]
        (detectColumns ["x", "y", "lon", "lat"]).idx_lat = some 14.59
    ∧ ReadSites ["x", "y", "lon", "lat"] [[none, none, some 120.98, some 14.59]] = [] := by
  have hci : detectColumns ["x", "y", "lon", "lat"]
      = (⟨true, true, 0, 1, 2, 3, -1, -1, -1, -1⟩ : ColIdx) := by decide
  have hrow : ∀ a b : ℝ, parseRow (⟨true, true, 0, 1, 2, 3, -1, -1, -1, -1⟩ : ColIdx) a b
      [none, none, some 120.98, some 14.59] = none := fun a b => rfl
  refine ⟨?_, ?_, ?_⟩
  · rw [hci]; rfl
  · rw [hci]; rfl
  · simp only [ReadSites, hci]
    simp only [List.filterMap_cons, List.filterMap_nil, hrow]
    rfl

/-- C8 (amended): the loader drops a row exactly when its selected
coordinate branch fails (the x/y branch takes priority and its failure is
final), it keeps no count of dropped rows, malformed optional attributes
are reset to the defaults (20 dBm, 3.5 GHz, 100 MHz, 250 m) while the row
is retained, the output length never exceeds the data-row count, and a
3-row x/y CSV with one unparsable row yields exactly the 2 normalized
sites. -/
theorem C8_amended_thm (cols : List String) (rows : List (List (Option ℝ)))
    (ci : ColIdx) (mLon mLat : ℝ) (toks : List (Option ℝ)) (c : ℝ × ℝ)
    (hc : parseCoords ci mLon mLat toks = some c)
    (htx : cellAt toks ci.idx_tx = none) (hfr : cellAt toks ci.idx_freq = none)
    (hbw : cellAt toks ci.idx_bw = none) (hr : cellAt toks ci.idx_r = none) :
    (ReadSites cols rows).length ≤ rows.length
    ∧ parseRow ci mLon mLat toks = some ⟨c.1, c.2, 20, 3.5, 100, 250⟩
    ∧ ReadSites ["x", "y"] [[some 1000, some 2000], [none, none], [some 3000, some 500]]
        = [⟨200, 1700, 20, 3.5, 100, 250⟩, ⟨2200, 200, 20, 3.5, 100, 250⟩] := by
  refine ⟨?_, ?_, ?_⟩
  · simp only [ReadSites]
    rw [normalizeSites_length]
    exact List.length_filterMap_le _ _
  · rw [parseRow, hc, parseAttrs_all_default ci toks htx hfr hbw hr]
  · have hci : detectColumns ["x", "y"]
        = (⟨true, false, 0, 1, -1, -1, -1, -1, -1, -1⟩ : ColIdx) := rfl
    have hr1 : ∀ a b : ℝ, parseRow ⟨true, false, 0, 1, -1, -1, -1, -1, -1, -1⟩ a b
        [some 1000, some 2000] = some ⟨1000, 2000, 20, 3.5, 100, 250⟩ := by
      intro a b
      rw [parseRow, parseCoords, if_pos ⟨rfl, by norm_num, by norm_num⟩]
      simp only [show cellAt [some (1000 : ℝ), some 2000] 0 = some 1000 from rfl,
        show cellAt [some (1000 : ℝ), some 2000] 1 = some 2000 from rfl]
      rw [if_neg (by rw [not_and_or]; left; rw [abs_of_pos (by norm_num)]; norm_num)]
      rfl
    have hr2 : ∀ a b : ℝ, parseRow ⟨true, false, 0, 1, -1, -1, -1, -1, -1, -1⟩ a b
        [none, none] = none := fun a b => rfl
    have hr3 : ∀ a b : ℝ, parseRow ⟨true, false, 0, 1, -1, -1, -1, -1, -1, -1⟩ a b
        [some 3000, some 500] = some ⟨3000, 500, 20, 3.5, 100, 250⟩ := by
      intro a b
      rw [parseRow, parseCoords, if_pos ⟨rfl, by norm_num, by norm_num⟩]
      simp only [show cellAt [some (3000 : ℝ), some 500] 0 = some 3000 from rfl,
        show cellAt [some (3000 : ℝ), some 500] 1 = some 500 from rfl]
      rw [if_neg (by rw [not_and_or]; left; rw [abs_of_pos (by norm_num)]; norm_num)]
      rfl
    simp only [ReadSites, hci]
    simp only [List.filterMap_cons, List.filterMap_nil, hr1, hr2, hr3]
    rw [normalizeSites_cons]
    simp only [List.map_cons, List.map_nil]
    norm_num [listMin, List.foldl_cons, List.foldl_nil, min_def, Site.mk.injEq]

theorem C8_witness :
    (ReadSites ["x", "y"] [[some 1000, some 2000], [none, none], [some 3000, some 500]]).length ≤ 3
    ∧ parseRow ⟨true, false, 0, 1, -1, -1, 2, -1, -1, -1⟩ 0 0 [some 1000, some 2000, none]
        = some ⟨1000, 2000, 20, 3.5, 100, 250⟩ := by
  have h := C8_amended_thm ["x", "y"]
    [[some 1000, some 2000], [none, none], [some 3000, some 500]]
    ⟨true, false, 0, 1, -1, -1, 2, -1, -1, -1⟩ 0 0 [some 1000, some 2000, none]
    ((1000 : ℝ), (2000 : ℝ))
    (by rw [parseCoords, if_pos ⟨rfl, by norm_num, by norm_num⟩]
        simp only [show cellAt [some (1000 : ℝ), some 2000, none] 0 = some 1000 from rfl,
          show cellAt [some (1000 : ℝ), some 2000, none] 1 = some 2000 from rfl]
        rw [if_neg (by rw [not_and_or]; left; rw [abs_of_pos (by norm_num)]; norm_num)])
    (by rfl) (by rfl) (by rfl) (by rfl)
  exact ⟨h.1, h.2.1⟩

end Optic5G
